import Mathlib

/-!
# gl: a small logging facade

A shallow embedding of `main.go` (package `gl`): the package-level configuration
(`enableDebug`, `enableSourceInfo`, `callStackDepth`), its initialisation from the `DEBUG`
environment variable, the two setters, `getSourceInfo`, and the four logging entry points
`Info`, `Infof`, `Debug`, `Debugf`.

The Go standard-library functions the package calls (`strconv.ParseInt`, `strings.ToUpper`,
`strings.Join`, `filepath.Base`, `strconv.FormatInt`, `runtime.Caller`, `fmt.Sprint`,
`fmt.Sprintf`) are modelled next to the code that uses them.  What lies outside these models
(the case mapping of non-ASCII text, formatting directives other than `%v` and `%%`, what
`runtime.Caller` reports when it ascends no frame, the width of `int`) is a parameter, and the
theorems hold for every value of it.
-/

namespace Gl

/-! ## Go strings -/

/-- A Go string is a sequence of bytes; a byte is a natural number below 256. -/
abbrev GoString := List Nat

/-- The UTF-8 bytes of a string literal. -/
def bytes (s : String) : GoString :=
  (s.data.flatMap String.utf8EncodeChar).map UInt8.toNat

/-! ## strconv.ParseInt -/

/-- The two errors `strconv` reports for base-10 input: `ErrSyntax` and `ErrRange`. -/
inductive NumError where
  | ErrSyntax
  | ErrRange
  deriving DecidableEq

/-- The value strconv's `lower` gives: `c | ('x' - 'X')`. -/
def lower (c : Nat) : Nat := c ||| 0x20

/-- The digit value `ParseUint` assigns to a byte, `none` for a byte that is neither an
ASCII digit nor an ASCII letter. -/
def digitVal (c : Nat) : Option Nat :=
  if 48 ≤ c ∧ c ≤ 57 then some (c - 48)
  else if 97 ≤ lower c ∧ lower c ≤ 122 then some (lower c - 97 + 10)
  else none

/-- The digit loop of `strconv.ParseUint` for an explicit base between 2 and 36:
`n` is the `uint64` accumulator, `cutoff = maxUint64/base + 1`, and `maxVal = 2^bitSize - 1`.
The loop returns at the first offending byte. -/
def parseUintLoop (base cutoff maxVal : Nat) : GoString → Nat → Nat × Option NumError
  | [], n => (n, none)
  | c :: rest, n =>
    match digitVal c with
    | none => (0, some NumError.ErrSyntax)
    | some d =>
      if d ≥ base then (0, some NumError.ErrSyntax)
      else if n ≥ cutoff then (maxVal, some NumError.ErrRange)
      else
        let n' := (n * base) % 2 ^ 64
        let n1 := (n' + d) % 2 ^ 64
        if n1 < n' ∨ n1 > maxVal then (maxVal, some NumError.ErrRange)
        else parseUintLoop base cutoff maxVal rest n1

/-- Model of `strconv.ParseUint(s, base, bitSize)` for `2 ≤ base ≤ 36` and
`0 ≤ bitSize ≤ 64`, on a platform whose `int` has `intSize` bits.  (The prefix detection of
`base == 0` is never reached from this package, which always passes base 10.) -/
def ParseUint (intSize : Nat) (s : GoString) (base bitSize : Nat) : Nat × Option NumError :=
  if s = [] then (0, some NumError.ErrSyntax)
  else
    let bitSize := if bitSize = 0 then intSize else bitSize
    let cutoff := (2 ^ 64 - 1) / base + 1
    let maxVal := 2 ^ bitSize - 1
    parseUintLoop base cutoff maxVal s 0

/-- Model of `strconv.ParseInt(s, base, bitSize)` for `2 ≤ base ≤ 36`: the returned integer
together with the error (`none` is Go's `nil`).  As in Go, a range error comes with the
nearest representable value and a syntax error with 0. -/
def ParseInt (intSize : Nat) (s : GoString) (base bitSize : Nat) : Int × Option NumError :=
  match s with
  | [] => (0, some NumError.ErrSyntax)
  | c :: rest =>
    let neg := decide (c = 45)
    let s' := if c = 43 ∨ c = 45 then rest else s
    let (un, err) := ParseUint intSize s' base bitSize
    if err = some NumError.ErrSyntax then (0, err)
    else
      let bitSize := if bitSize = 0 then intSize else bitSize
      let cutoff := 2 ^ (bitSize - 1)
      if !neg ∧ un ≥ cutoff then ((cutoff : Int) - 1, some NumError.ErrRange)
      else if neg ∧ un > cutoff then (-(cutoff : Int), some NumError.ErrRange)
      else (if neg then -(un : Int) else (un : Int), none)

/-! ## strings.ToUpper -/

/-- Model of `strings.ToUpper`.  The ASCII-only path is the library's byte loop; for a string
with a byte at or above `utf8.RuneSelf` the library returns
`strings.Map(unicode.ToUpper, s)`, which is the parameter `mapUpper`. -/
def ToUpper (mapUpper : GoString → GoString) (s : GoString) : GoString :=
  if s.all (fun c => decide (c < 0x80)) then
    if s.any (fun c => decide (97 ≤ c ∧ c ≤ 122)) then
      s.map (fun c => if 97 ≤ c ∧ c ≤ 122 then c - 32 else c)
    else s
  else mapUpper s

/-! ## Package state and `init` -/

/-- The package-level variables of `main.go`. -/
structure State where
  enableDebug : Bool
  enableSourceInfo : Bool
  callStackDepth : Int
  deriving DecidableEq

/-- The values the `var` block gives the package variables. -/
def initial : State :=
  { enableDebug := false, enableSourceInfo := false, callStackDepth := 3 }

/-- The constant `y`. -/
def y : GoString := bytes "YES"

/-- The constant `t`. -/
def t : GoString := bytes "TRUE"

/-- The constant `s`, the separator of the log output. -/
def s : GoString := bytes " - "

/-- Model of `os.Getenv`: the value of the variable, the empty string when it is unset. -/
def Getenv (v : Option GoString) : GoString := v.getD []

/-- The package's `init`, run on state `st` with the environment variable `DEBUG` bound to
`env` (`none` when unset). -/
def init (intSize : Nat) (mapUpper : GoString → GoString) (env : Option GoString)
    (st : State) : State :=
  let isDebug := Getenv env
  if isDebug ≠ [] then
    let (debugInt, err) := ParseInt intSize isDebug 10 0
    let debugInt :=
      if err ≠ none then
        let debugStr := ToUpper mapUpper isDebug
        if debugStr = y ∨ debugStr = t then 1 else debugInt
      else debugInt
    if debugInt = 1 then { st with enableDebug := true, enableSourceInfo := true }
    else st
  else st

/-- The exported `IsDebug`. -/
def IsDebug (st : State) : Bool := st.enableDebug

/-- The exported `SetCallStackDepth`. -/
def SetCallStackDepth (stackDepth : Int) (st : State) : State :=
  { st with callStackDepth := stackDepth }

/-- The exported `SetDisplaySourceInfo`. -/
def SetDisplaySourceInfo (showSourceInfo : Bool) (st : State) : State :=
  { st with enableSourceInfo := showSourceInfo }

/-! ## filepath.Base, strconv.FormatInt, strings.Join -/

/-- Model of `filepath.Base` with the Unix separator `/` (no volume names): trailing
separators are stripped, then the element after the last separator is kept; the empty path
gives `.` and a path of separators only gives `/`. -/
def Base (path : GoString) : GoString :=
  if path = [] then bytes "."
  else
    let stripped := (path.reverse.dropWhile (fun c => decide (c = 47))).reverse
    let last := (stripped.reverse.takeWhile (fun c => decide (c ≠ 47))).reverse
    if last = [] then bytes "/" else last

/-- The byte strconv's digit table holds for digit value `d`. -/
def digitByte (d : Nat) : Nat := if d < 10 then 48 + d else 97 + (d - 10)

/-- The digit loop of strconv's `formatBits`: while `u ≥ base` the low digit is written in
front of `acc` and `u` is divided; the last digit closes the loop.  `fuel` bounds the number
of iterations. -/
def formatBits (base : Nat) : Nat → Nat → GoString → GoString
  | 0, _, acc => acc
  | fuel + 1, u, acc =>
    if u < base then digitByte u :: acc
    else formatBits base fuel (u / base) (digitByte (u % base) :: acc)

/-- Model of `strconv.FormatInt(i, base)` for `2 ≤ base ≤ 36`. -/
def FormatInt (i : Int) (base : Nat) : GoString :=
  let u := i.natAbs
  let digits := formatBits base (u + 1) u []
  if i < 0 then 45 :: digits else digits

/-- The number a string of decimal digits denotes. -/
def decimalValue (digits : GoString) : Nat :=
  digits.foldl (fun n c => n * 10 + (c - 48)) 0

/-- Model of `strings.Join`. -/
def Join : List GoString → GoString → GoString
  | [], _ => []
  | [a], _ => a
  | a :: b :: rest, sep => a ++ sep ++ Join (b :: rest) sep

/-! ## The call stack and runtime.Caller -/

/-- What `runtime.Caller` reports about one stack frame: the file and the line of the call
that is active in it. -/
structure Frame where
  file : GoString
  line : Int
  deriving DecidableEq

/-- What the package takes from the Go runtime and the build: the path the compiler recorded
for `main.go`, the width of `int` (32 or 64 bits), and what `runtime.Caller(skip)` reports
when it ascends no frame (see `Caller`): a frame of the runtime itself. -/
structure Runtime where
  file : GoString
  intSize : Nat
  intSize_eq : intSize = 32 ∨ intSize = 64
  ownFrame : Int → Option Frame

/-- The value of `x` as an `int` of `w` bits: two's-complement wrap-around. -/
def wrapInt (w : Nat) (x : Int) : Int :=
  (x + 2 ^ (w - 1)) % 2 ^ w - 2 ^ (w - 1)

/-- Model of `runtime.Caller(skip)`: `stack` lists the active frames, innermost first, its
head being the function that calls `runtime.Caller`.  The runtime computes `skip + 1` in
`int` and ascends that many frames from its own frame.  When `skip + 1` is not positive
(`skip` negative, or `skip` the largest `int`, where the sum wraps around) no frame is
ascended and the report is about the runtime itself: `rt.ownFrame`.  Otherwise the report is
the frame `skip` places up the stack, and Go's `ok == false` (`none`) when there is none.  A
`skip` that is no `int` at all falls under `rt.ownFrame` as well. -/
def Caller (rt : Runtime) (stack : List Frame) (skip : Int) : Option Frame :=
  let next := wrapInt rt.intSize (skip + 1)
  if next ≤ 0 ∨ next ≠ skip + 1 then rt.ownFrame skip else stack.get? skip.toNat

/-! ## The log package: values, fmt.Sprint, fmt.Sprintf -/

/-- A value passed as `interface{}`, as far as `fmt` looks at it: untyped `nil`, a Go
`string`, or any other value, given by whether its kind is `reflect.String`, the name of its
type and the text the verb `%v` writes for it. -/
inductive Value where
  | nil
  | string (s : GoString)
  | other (kindString : Bool) (typeName : GoString) (text : GoString)
  deriving DecidableEq

/-- The test `arg != nil && reflect.TypeOf(arg).Kind() == reflect.String` of fmt's
`doPrint`. -/
def Value.isString : Value → Bool
  | Value.nil => false
  | Value.string _ => true
  | Value.other k _ _ => k

/-- What `printArg(arg, 'v')` writes. -/
def printArg : Value → GoString
  | Value.nil => bytes "<nil>"
  | Value.string s => s
  | Value.other _ _ text => text

/-- The loop of fmt's `doPrint`: a space goes between two operands when neither is a
string. -/
def doPrint : List Value → Bool → Bool → GoString
  | [], _, _ => []
  | arg :: rest, first, prevString =>
    (if !first ∧ !arg.isString ∧ !prevString then [32] else []) ++ printArg arg
      ++ doPrint rest false arg.isString

/-- Model of `fmt.Sprint`. -/
def Sprint (a : List Value) : GoString := doPrint a true false

/-- The `%!(EXTRA ...)` list fmt's `doPrintf` writes for the operands no verb consumed. -/
def extraArgs : List Value → Bool → GoString
  | [], _ => []
  | arg :: rest, first =>
    (if first then [] else bytes ", ")
      ++ (match arg with
          | Value.nil => bytes "<nil>"
          | Value.string s => bytes "string=" ++ s
          | Value.other _ ty text => ty ++ [61] ++ text)
      ++ extraArgs rest false

/-- The end of fmt's `doPrintf`: operands left over are reported. -/
def finishPrintf (a : List Value) (argNum : Nat) : GoString :=
  if argNum < a.length then bytes "%!(EXTRA " ++ extraArgs (a.drop argNum) true ++ [41] else []

/-- The loop of fmt's `doPrintf` on the directives this development needs: literal text,
`%%`, a plain `%v`, and a lone `%` at the end of the format.  At any other directive the
rest of the output is what `directive` gives for the remaining format (after the `%`), the
operands and the operand index. -/
def doPrintf (directive : GoString → List Value → Nat → GoString) :
    GoString → List Value → Nat → GoString
  | [], a, argNum => finishPrintf a argNum
  | c :: rest, a, argNum =>
    if c ≠ 37 then c :: doPrintf directive rest a argNum
    else
      match rest with
      | [] => bytes "%!(NOVERB)" ++ finishPrintf a argNum
      | verb :: rest' =>
        if verb = 37 then 37 :: doPrintf directive rest' a argNum
        else if verb = 118 then
          match a.get? argNum with
          | some arg => printArg arg ++ doPrintf directive rest' a (argNum + 1)
          | none => bytes "%!v(MISSING)" ++ doPrintf directive rest' a argNum
        else directive rest a argNum

/-- Model of `fmt.Sprintf`. -/
def Sprintf (directive : GoString → List Value → Nat → GoString) (format : GoString)
    (a : List Value) : GoString :=
  doPrintf directive format a 0

/-! ## Effects of the logging functions -/

/-- What a logging function does to the outside: a call of `runtime.Caller` (with the stack
it is made on), a call of `log.Print`, a call of `log.Printf`. -/
inductive Effect where
  | caller (stack : List Frame) (skip : Int)
  | print (v : List Value)
  | printf (format : GoString) (v : List Value)
  deriving DecidableEq

/-- Whether an effect is a call of the emit primitive (`log.Print` or `log.Printf`). -/
def Effect.isEmit : Effect → Bool
  | Effect.caller _ _ => false
  | Effect.print _ => true
  | Effect.printf _ _ => true

/-- Whether an effect is a call-stack resolution. -/
def Effect.isCaller : Effect → Bool
  | Effect.caller _ _ => true
  | _ => false

/-- The message an emit call hands to the logger's `Output`: `fmt.Sprint(v...)` for
`log.Print`, `fmt.Sprintf(format, v...)` for `log.Printf`. -/
def Effect.message (directive : GoString → List Value → Nat → GoString) : Effect → Option GoString
  | Effect.caller _ _ => none
  | Effect.print v => some (Sprint v)
  | Effect.printf format v => some (Sprintf directive format v)

/-- The messages of a run, in order. -/
def messages (directive : GoString → List Value → Nat → GoString) (es : List Effect) :
    List GoString :=
  es.filterMap (Effect.message directive)

/-! ## The logging functions

Each function takes the frames of its callers (`stack`, innermost first: the head is the frame
of its caller, at the line of the call) and returns its effects.  A function that calls
another one adds its own frame, at the line of `main.go` where the call stands. -/

/-- The function `getSourceInfo`: the result and the effects.  `runtime.Caller` is called on
line 83. -/
def getSourceInfo (rt : Runtime) (st : State) (stack : List Frame) : GoString × List Effect :=
  let here := { file := rt.file, line := 83 } :: stack
  let sourceInfo :=
    match Caller rt here st.callStackDepth with
    | some f => Join [Base f.file, FormatInt f.line 10] (bytes ":")
    | none => []
  (sourceInfo, [Effect.caller here st.callStackDepth])

/-- The function `infoLog`; `getSourceInfo` is called on line 95. -/
def infoLog (rt : Runtime) (st : State) (stack : List Frame) (v : List Value) : List Effect :=
  let (v, es) :=
    if st.enableSourceInfo then
      let (sourceInfo, es) := getSourceInfo rt st ({ file := rt.file, line := 95 } :: stack)
      ([Value.string sourceInfo, Value.string s] ++ v, es)
    else (v, [])
  es ++ [Effect.print v]

/-- The function `infoLogf`; `getSourceInfo` is called on line 106. -/
def infoLogf (rt : Runtime) (st : State) (stack : List Frame) (format : GoString)
    (v : List Value) : List Effect :=
  let (format, es) :=
    if st.enableSourceInfo then
      let (sourceInfo, es) := getSourceInfo rt st ({ file := rt.file, line := 106 } :: stack)
      (Join [sourceInfo, format] s, es)
    else (format, [])
  es ++ [Effect.printf format v]

/-- The exported `Info`; `infoLog` is called on line 114. -/
def Info (rt : Runtime) (st : State) (stack : List Frame) (v : List Value) : List Effect :=
  infoLog rt st ({ file := rt.file, line := 114 } :: stack) v

/-- The exported `Infof`; `infoLogf` is called on line 119. -/
def Infof (rt : Runtime) (st : State) (stack : List Frame) (format : GoString)
    (v : List Value) : List Effect :=
  infoLogf rt st ({ file := rt.file, line := 119 } :: stack) format v

/-- The exported `Debug`; `infoLog` is called on line 125. -/
def Debug (rt : Runtime) (st : State) (stack : List Frame) (v : List Value) : List Effect :=
  if st.enableDebug then infoLog rt st ({ file := rt.file, line := 125 } :: stack) v
  else []

/-- The exported `Debugf`; `infoLogf` is called on line 132. -/
def Debugf (rt : Runtime) (st : State) (stack : List Frame) (format : GoString)
    (v : List Value) : List Effect :=
  if st.enableDebug then infoLogf rt st ({ file := rt.file, line := 132 } :: stack) format v
  else []

/-- A 64-bit build whose `main.go` lies at `/go/src/github.com/chuck7000/gl/main.go` and
whose runtime, when it ascends no frame, reports line 313 of its `extern.go`, where
`runtime.Caller` collects the stack. -/
def sampleRuntime : Runtime :=
  { file := bytes "/go/src/github.com/chuck7000/gl/main.go",
    intSize := 64,
    intSize_eq := Or.inr rfl,
    ownFrame := fun _ => some ⟨bytes "/usr/local/go/src/runtime/extern.go", 313⟩ }

/-! ## Facts about the library models -/

theorem ParseInt_nil (intSize base bitSize : Nat) :
    ParseInt intSize [] base bitSize = (0, some NumError.ErrSyntax) := rfl

/-- A failed `ParseInt` never returns 1: it returns 0 on a syntax error and the nearest
bound of the integer type on a range error. -/
theorem ParseInt_error_ne_one (intSize : Nat) (hsz : intSize = 32 ∨ intSize = 64)
    (value : GoString) (n : Int) (e : NumError)
    (h : ParseInt intSize value 10 0 = (n, some e)) : n ≠ 1 := by
  unfold ParseInt at h
  cases value with
  | nil => simp at h; omega
  | cons c rest =>
    simp only [↓reduceIte] at h
    generalize ParseUint intSize (if c = 43 ∨ c = 45 then rest else c :: rest) 10 0 = r at h
    obtain ⟨un, err⟩ := r
    simp only at h
    split at h
    · simp at h; omega
    · split at h
      · have h1 := congrArg Prod.fst h
        rcases hsz with rfl | rfl <;> simp at h1 <;> omega
      · split at h
        · have h1 := congrArg Prod.fst h
          rcases hsz with rfl | rfl <;> simp at h1 <;> omega
        · simp at h

theorem ToUpper_nil (mapUpper : GoString → GoString) : ToUpper mapUpper [] = [] := rfl

/-- The state `init` leaves, in terms of the integer that decides it. -/
theorem init_some_cons (intSize : Nat) (mapUpper : GoString → GoString) (c : Nat)
    (rest : GoString) (st : State) :
    init intSize mapUpper (some (c :: rest)) st =
      if (if (ParseInt intSize (c :: rest) 10 0).2 ≠ none then
            (if ToUpper mapUpper (c :: rest) = y ∨ ToUpper mapUpper (c :: rest) = t then 1
             else (ParseInt intSize (c :: rest) 10 0).1)
          else (ParseInt intSize (c :: rest) 10 0).1) = 1
      then { st with enableDebug := true, enableSourceInfo := true } else st := by
  simp [init, Getenv]

/-- The function `init` never assigns `callStackDepth`. -/
theorem init_callStackDepth (intSize : Nat) (mapUpper : GoString → GoString)
    (env : Option GoString) (st : State) :
    (init intSize mapUpper env st).callStackDepth = st.callStackDepth := by
  unfold init
  simp only
  split_ifs <;> rfl

theorem Join_pair (a b sep : GoString) : Join [a, b] sep = a ++ sep ++ b := rfl

/-- The result of `filepath.Base` holds a separator only when it is the single separator. -/
theorem Base_separator (path : GoString) : Base path = bytes "/" ∨ 47 ∉ Base path := by
  unfold Base
  split
  · right; decide
  · simp only
    split
    · left; rfl
    · right
      intro hmem
      rw [List.mem_reverse] at hmem
      have := List.mem_takeWhile_imp hmem
      simp at this

/-- The base of a path that is empty or has a byte other than the separator holds no
separator. -/
theorem Base_no_separator (path : GoString) (h : path = [] ∨ ∃ c ∈ path, c ≠ 47) :
    47 ∉ Base path := by
  rcases Base_separator path with hb | hb
  · exfalso
    rcases h with h | ⟨c, hc, hne⟩
    · subst h
      revert hb
      decide
    · unfold Base at hb
      have hp : path ≠ [] := List.ne_nil_of_mem hc
      rw [if_neg hp] at hb
      simp only [List.reverse_reverse] at hb
      split at hb
      · rename_i hl
        have hl' := List.reverse_eq_nil_iff.mp hl
        have hd : ∃ d ∈ path.reverse, ¬ (decide (d = 47) = true) :=
          ⟨c, List.mem_reverse.mpr hc, by simpa using hne⟩
        have hne' : List.dropWhile (fun c => decide (c = 47)) path.reverse ≠ [] := by
          intro he
          rw [List.dropWhile_eq_nil_iff] at he
          obtain ⟨d, hd1, hd2⟩ := hd
          exact hd2 (he d hd1)
        obtain ⟨d, ds, hds⟩ := List.exists_cons_of_ne_nil hne'
        have hhead := List.head_dropWhile_not (fun c => decide (c = 47)) path.reverse hne'
        simp only [hds, List.head_cons] at hhead
        rw [hds, List.takeWhile_cons] at hl'
        simp at hhead
        simp [hhead] at hl'
      · rename_i hl
        have h47 : (47 : Nat) ∈ bytes "/" := by decide
        rw [← hb] at h47
        rw [List.mem_reverse] at h47
        have := List.mem_takeWhile_imp h47
        simp at this
  · exact hb

/-- In `fmt.Sprint` two leading strings are written one after the other without a space,
and the operands after them are written as they are on their own. -/
theorem doPrint_after_string (v : List Value) : doPrint v false true = doPrint v true false := by
  cases v with
  | nil => rfl
  | cons arg rest => simp [doPrint]

theorem Sprint_string_string (a b : GoString) (v : List Value) :
    Sprint (Value.string a :: Value.string b :: v) = a ++ b ++ Sprint v := by
  simp [Sprint, doPrint, Value.isString, printArg, doPrint_after_string]

/-- Text without `%` in front of a format is copied to the output by `fmt.Sprintf`. -/
theorem doPrintf_literal (directive : GoString → List Value → Nat → GoString)
    (lit format : GoString) (a : List Value) (argNum : Nat) (h : ∀ c ∈ lit, c ≠ 37) :
    doPrintf directive (lit ++ format) a argNum = lit ++ doPrintf directive format a argNum := by
  induction lit with
  | nil => rfl
  | cons c rest ih =>
    have hc : c ≠ 37 := h c (List.mem_cons_self _ _)
    have hrest : ∀ x ∈ rest, x ≠ 37 := fun x hx => h x (List.mem_cons_of_mem _ hx)
    rw [List.cons_append, doPrintf.eq_def]
    simp only [hc, ne_eq, not_false_eq_true, ↓reduceIte]
    rw [ih hrest, List.cons_append]

theorem Sprintf_separator (directive : GoString → List Value → Nat → GoString)
    (format : GoString) (a : List Value) :
    Sprintf directive (s ++ format) a = s ++ Sprintf directive format a :=
  doPrintf_literal directive s format a 0 (by decide)

/-- For a `skip` that is not negative and below the largest `int`, `skip + 1` does not wrap
and `runtime.Caller` reports the frame `skip` places up the stack. -/
theorem Caller_ascends (rt : Runtime) (stack : List Frame) (skip : Int)
    (h0 : 0 ≤ skip) (h1 : skip + 1 < 2 ^ (rt.intSize - 1)) :
    Caller rt stack skip = stack.get? skip.toNat := by
  unfold Caller wrapInt
  have hc : ¬ ((skip + 1 + 2 ^ (rt.intSize - 1)) % 2 ^ rt.intSize - 2 ^ (rt.intSize - 1) ≤ 0 ∨
      (skip + 1 + 2 ^ (rt.intSize - 1)) % 2 ^ rt.intSize - 2 ^ (rt.intSize - 1) ≠ skip + 1) := by
    rcases rt.intSize_eq with h | h <;> rw [h] at h1 ⊢ <;> norm_num at h1 ⊢ <;> omega
  simp only [hc, if_false]

/-- When `skip + 1` is not positive or wraps, the report is `rt.ownFrame skip`. -/
theorem Caller_own (rt : Runtime) (stack : List Frame) (skip : Int)
    (h : skip < 0 ∨ 2 ^ (rt.intSize - 1) ≤ skip + 1) :
    Caller rt stack skip = rt.ownFrame skip := by
  unfold Caller wrapInt
  have hc : (skip + 1 + 2 ^ (rt.intSize - 1)) % 2 ^ rt.intSize - 2 ^ (rt.intSize - 1) ≤ 0 ∨
      (skip + 1 + 2 ^ (rt.intSize - 1)) % 2 ^ rt.intSize - 2 ^ (rt.intSize - 1) ≠ skip + 1 := by
    rcases rt.intSize_eq with h' | h' <;> rw [h'] at h ⊢ <;> norm_num at h ⊢ <;> omega
  simp only [hc, if_true]

/-- The frame `runtime.Caller` reports when `skip` exceeds the stack and is below the
largest `int`: none. -/
theorem Caller_beyond (rt : Runtime) (stack : List Frame) (skip : Int)
    (h : (stack.length : Int) ≤ skip) (h1 : skip + 1 < 2 ^ (rt.intSize - 1)) :
    Caller rt stack skip = none := by
  rw [Caller_ascends rt stack skip (by omega) h1, List.get?_eq_none]
  omega

/-- Below the third frame `runtime.Caller` does not see which function the third frame
belongs to, unless `skip` is 2. -/
theorem Caller_third_frame (rt : Runtime) (a b e1 e2 : Frame) (stack : List Frame)
    (skip : Int) (h : skip ≠ 2) :
    Caller rt (a :: b :: e1 :: stack) skip = Caller rt (a :: b :: e2 :: stack) skip := by
  by_cases hr : skip < 0 ∨ 2 ^ (rt.intSize - 1) ≤ skip + 1
  · rw [Caller_own rt _ skip hr, Caller_own rt _ skip hr]
  · have h0 : 0 ≤ skip := by omega
    have h1 : skip + 1 < 2 ^ (rt.intSize - 1) := by omega
    rw [Caller_ascends rt _ skip h0 h1, Caller_ascends rt _ skip h0 h1]
    have h2 : skip.toNat ≠ 2 := by omega
    rcases hn : skip.toNat with _ | _ | _ | n
    · rfl
    · rfl
    · exact absurd hn h2
    · rfl

/-- With `skip = 3` and three frames on top, `runtime.Caller` reports the fourth frame. -/
theorem Caller_three (rt : Runtime) (a b c site : Frame) (rest : List Frame) :
    Caller rt (a :: b :: c :: site :: rest) 3 = some site := by
  rw [Caller_ascends rt _ 3 (by decide)
    (by rcases rt.intSize_eq with h | h <;> rw [h] <;> norm_num)]
  rfl

/-- With `skip = 2`, `runtime.Caller` reports the third frame. -/
theorem Caller_two (rt : Runtime) (a b c : Frame) (rest : List Frame) :
    Caller rt (a :: b :: c :: rest) 2 = some c := by
  rw [Caller_ascends rt _ 2 (by decide)
    (by rcases rt.intSize_eq with h | h <;> rw [h] <;> norm_num)]
  rfl

theorem formatBits_append (base : Nat) (fuel u : Nat) (acc : GoString) :
    formatBits base fuel u acc = formatBits base fuel u [] ++ acc := by
  induction fuel generalizing u acc with
  | zero => rfl
  | succ fuel ih =>
    simp only [formatBits]
    split
    · rfl
    · rw [ih (u / base) (digitByte (u % base) :: acc), ih (u / base) [digitByte (u % base)]]
      simp

/-- The digit loop with enough fuel writes decimal digits only, and they denote `u`: the
fuel `FormatInt` gives the loop is never used up. -/
theorem formatBits_decimal (fuel u : Nat) (h : u < fuel) :
    (∀ c ∈ formatBits 10 fuel u [], 48 ≤ c ∧ c ≤ 57) ∧
    decimalValue (formatBits 10 fuel u []) = u ∧ formatBits 10 fuel u [] ≠ [] := by
  induction fuel generalizing u with
  | zero => omega
  | succ fuel ih =>
    simp only [formatBits]
    split
    · rename_i hlt
      have hd : digitByte u = 48 + u := by simp [digitByte, hlt]
      simp [hd, decimalValue]
      omega
    · rename_i hge
      have hlt : u / 10 < fuel := by omega
      have hm : u % 10 < 10 := Nat.mod_lt _ (by decide)
      have hd : digitByte (u % 10) = 48 + u % 10 := by simp [digitByte, hm]
      obtain ⟨h1, h2, h3⟩ := ih (u / 10) hlt
      rw [formatBits_append]
      refine ⟨?_, ?_, by simp⟩
      · intro c hc
        rcases List.mem_append.mp hc with hc | hc
        · exact h1 c hc
        · simp only [List.mem_singleton] at hc
          omega
      · unfold decimalValue at h2 ⊢
        rw [List.foldl_append, h2, hd]
        simp only [List.foldl_cons, List.foldl_nil]
        omega

/-- For a line number that is not negative, `FormatInt(line, 10)` is a non-empty string of
decimal digits denoting it. -/
theorem FormatInt_decimal (line : Nat) :
    (∀ c ∈ FormatInt (line : Int) 10, 48 ≤ c ∧ c ≤ 57) ∧
    decimalValue (FormatInt (line : Int) 10) = line ∧ FormatInt (line : Int) 10 ≠ [] := by
  have h := formatBits_decimal (line + 1) line (Nat.lt_succ_self _)
  have hneg : ¬ ((line : Int) < 0) := by omega
  simpa [FormatInt, hneg] using h

/-! ## Initialisation from `DEBUG` -/

/-- C1: for every `DEBUG` value that `strconv.ParseInt(value, 10, 0)` parses to an integer `n`
without error, after `init` the flag `enableDebug` is true exactly when `n = 1`, and so is
`enableSourceInfo`; in particular `1`, `+1` and `01` enable both flags, while `2`, `0` and
`-5` leave both false. -/
theorem init_parsed_enables_iff_one (intSize : Nat) (hsz : intSize = 32 ∨ intSize = 64)
    (mapUpper : GoString → GoString) :
    (∀ (value : GoString) (n : Int), ParseInt intSize value 10 0 = (n, none) →
        ((init intSize mapUpper (some value) initial).enableDebug = true ↔ n = 1) ∧
        ((init intSize mapUpper (some value) initial).enableSourceInfo = true ↔ n = 1)) ∧
    (∀ value ∈ [bytes "1", bytes "+1", bytes "01"],
        (ParseInt intSize value 10 0).2 = none ∧
        (init intSize mapUpper (some value) initial).enableDebug = true ∧
        (init intSize mapUpper (some value) initial).enableSourceInfo = true) ∧
    (∀ value ∈ [bytes "2", bytes "0", bytes "-5"],
        (ParseInt intSize value 10 0).2 = none ∧
        (init intSize mapUpper (some value) initial).enableDebug = false ∧
        (init intSize mapUpper (some value) initial).enableSourceInfo = false) := by
  refine ⟨?_, ?_, ?_⟩
  · intro value n h
    cases value with
    | nil => simp [ParseInt_nil] at h
    | cons c rest =>
      rw [init_some_cons, h]
      by_cases hn : n = 1 <;> simp [hn, initial]
  · intro value hv
    simp only [List.mem_cons, List.mem_singleton, List.not_mem_nil, or_false] at hv
    rcases hsz with rfl | rfl <;> rcases hv with rfl | rfl | rfl <;> exact ⟨rfl, rfl, rfl⟩
  · intro value hv
    simp only [List.mem_cons, List.mem_singleton, List.not_mem_nil, or_false] at hv
    rcases hsz with rfl | rfl <;> rcases hv with rfl | rfl | rfl <;> exact ⟨rfl, rfl, rfl⟩

/-- Witness for C1 on a 64-bit platform: `+1` parses to 1 and enables both flags. -/
theorem init_parsed_enables_iff_one_witness :
    (64 = 32 ∨ 64 = 64) ∧ ParseInt 64 (bytes "+1") 10 0 = (1, none) ∧
      (((init 64 id (some (bytes "+1")) initial).enableDebug = true ↔ (1 : Int) = 1) ∧
       ((init 64 id (some (bytes "+1")) initial).enableSourceInfo = true ↔ (1 : Int) = 1)) :=
  ⟨Or.inr rfl, by decide,
    (init_parsed_enables_iff_one 64 (Or.inr rfl) id).1 (bytes "+1") 1 (by decide)⟩

/-- C2 at the failing input: `2` parses to the positive integer 2 without error, yet after
`init` (on a 32-bit and on a 64-bit platform) `IsDebug` is false. -/
theorem init_two_leaves_debug_off (mapUpper : GoString → GoString) :
    ParseInt 32 (bytes "2") 10 0 = (2, none) ∧ ParseInt 64 (bytes "2") 10 0 = (2, none) ∧
    IsDebug (init 32 mapUpper (some (bytes "2")) initial) = false ∧
    IsDebug (init 64 mapUpper (some (bytes "2")) initial) = false :=
  ⟨by decide, by decide, rfl, rfl⟩

/-- C3: for every `DEBUG` setting on which the base-10 parse fails, `init` (a total function)
sets `enableDebug` exactly when `strings.ToUpper(value)` is `YES` or `TRUE`, and
`enableSourceInfo` likewise; `99999999999999999999` fails with a range error; and for `no`,
`false`, the empty string and an unset variable both flags stay false. -/
theorem init_unparsed_enables_iff_truthy (intSize : Nat) (hsz : intSize = 32 ∨ intSize = 64)
    (mapUpper : GoString → GoString) :
    (∀ (env : Option GoString) (n : Int) (e : NumError),
        ParseInt intSize (Getenv env) 10 0 = (n, some e) →
        ((init intSize mapUpper env initial).enableDebug = true ↔
          (ToUpper mapUpper (Getenv env) = y ∨ ToUpper mapUpper (Getenv env) = t)) ∧
        ((init intSize mapUpper env initial).enableSourceInfo = true ↔
          (ToUpper mapUpper (Getenv env) = y ∨ ToUpper mapUpper (Getenv env) = t))) ∧
    (ParseInt intSize (bytes "99999999999999999999") 10 0).2 = some NumError.ErrRange ∧
    (∀ env ∈ [some (bytes "99999999999999999999"), some (bytes "no"), some (bytes "false"),
              some (bytes ""), none],
        (ParseInt intSize (Getenv env) 10 0).2 ≠ none ∧
        (init intSize mapUpper env initial).enableDebug = false ∧
        (init intSize mapUpper env initial).enableSourceInfo = false) ∧
    (∀ env ∈ [some (bytes "yes"), some (bytes "YES"), some (bytes "true"), some (bytes "tRuE")],
        (ParseInt intSize (Getenv env) 10 0).2 ≠ none ∧
        (init intSize mapUpper env initial).enableDebug = true ∧
        (init intSize mapUpper env initial).enableSourceInfo = true) := by
  refine ⟨?_, ?_, ?_, ?_⟩
  · intro env n e h
    have hn := ParseInt_error_ne_one intSize hsz _ n e h
    rcases env with _ | (_ | ⟨c, rest⟩)
    · have hy : ¬(([] : GoString) = y) := by decide
      have ht : ¬(([] : GoString) = t) := by decide
      simp [init, Getenv, ToUpper_nil, initial, hy, ht]
    · have hy : ¬(([] : GoString) = y) := by decide
      have ht : ¬(([] : GoString) = t) := by decide
      simp [init, Getenv, ToUpper_nil, initial, hy, ht]
    · simp only [Getenv, Option.getD_some] at h ⊢
      rw [init_some_cons, h]
      by_cases hu : ToUpper mapUpper (c :: rest) = y ∨ ToUpper mapUpper (c :: rest) = t
      · simp [hu]
      · simp [hu, hn, initial]
  · rcases hsz with rfl | rfl <;> rfl
  · intro env hv
    simp only [List.mem_cons, List.mem_singleton, List.not_mem_nil, or_false] at hv
    rcases hsz with rfl | rfl <;> rcases hv with rfl | rfl | rfl | rfl | rfl <;>
      exact ⟨by decide, rfl, rfl⟩
  · intro env hv
    simp only [List.mem_cons, List.mem_singleton, List.not_mem_nil, or_false] at hv
    rcases hsz with rfl | rfl <;> rcases hv with rfl | rfl | rfl | rfl <;>
      exact ⟨by decide, rfl, rfl⟩

/-- Witness for C3 on a 64-bit platform: `Yes` is no integer, upper-cases to `YES`, and
enables both flags. -/
theorem init_unparsed_enables_iff_truthy_witness :
    (64 = 32 ∨ 64 = 64) ∧
    ParseInt 64 (Getenv (some (bytes "Yes"))) 10 0 = (0, some NumError.ErrSyntax) ∧
      (((init 64 id (some (bytes "Yes")) initial).enableDebug = true ↔
          (ToUpper id (Getenv (some (bytes "Yes"))) = y ∨
            ToUpper id (Getenv (some (bytes "Yes"))) = t)) ∧
       ((init 64 id (some (bytes "Yes")) initial).enableSourceInfo = true ↔
          (ToUpper id (Getenv (some (bytes "Yes"))) = y ∨
            ToUpper id (Getenv (some (bytes "Yes"))) = t))) :=
  ⟨Or.inr rfl, by decide,
    (init_unparsed_enables_iff_truthy 64 (Or.inr rfl) id).1 (some (bytes "Yes")) 0
      NumError.ErrSyntax (by decide)⟩

/-! ## The logging entry points -/

/-- C4: in every configuration state and for every argument list, `Info` and `Infof` call the
emit primitive exactly once, whatever `enableDebug` is; `Debug` and `Debugf` call it exactly
once when `enableDebug` is true; when `enableDebug` is false they have no effect at all: no
emit call and no call of `runtime.Caller`, whatever `enableSourceInfo` is. -/
theorem emit_calls_per_entry_point (rt : Runtime) (st : State) (stack : List Frame)
    (format : GoString) (v : List Value) :
    (Info rt st stack v).countP Effect.isEmit = 1 ∧
    (Infof rt st stack format v).countP Effect.isEmit = 1 ∧
    (st.enableDebug = true →
      (Debug rt st stack v).countP Effect.isEmit = 1 ∧
      (Debugf rt st stack format v).countP Effect.isEmit = 1) ∧
    (st.enableDebug = false →
      (Debug rt st stack v).countP Effect.isEmit = 0 ∧
      (Debug rt st stack v).countP Effect.isCaller = 0 ∧
      (Debugf rt st stack format v).countP Effect.isEmit = 0 ∧
      (Debugf rt st stack format v).countP Effect.isCaller = 0 ∧
      Debug rt st stack v = [] ∧ Debugf rt st stack format v = []) := by
  refine ⟨?_, ?_, ?_, ?_⟩
  · cases hs : st.enableSourceInfo <;>
      simp [Info, infoLog, getSourceInfo, hs, Effect.isEmit]
  · cases hs : st.enableSourceInfo <;>
      simp [Infof, infoLogf, getSourceInfo, hs, Effect.isEmit]
  · intro hd
    cases hs : st.enableSourceInfo <;>
      simp [Debug, Debugf, infoLog, infoLogf, getSourceInfo, hs, hd, Effect.isEmit]
  · intro hd
    simp [Debug, Debugf, hd]

/-- Witness for C4: with debugging off and source information on, `Debug` and `Debugf` do
nothing; with debugging on they emit once. -/
theorem emit_calls_per_entry_point_witness :
    ((Debug sampleRuntime { initial with enableDebug := true, enableSourceInfo := true }
        [⟨bytes "/x/app.go", 10⟩] [Value.string (bytes "hi")]).countP Effect.isEmit = 1 ∧
     (Debugf sampleRuntime { initial with enableDebug := true, enableSourceInfo := true }
        [⟨bytes "/x/app.go", 10⟩] (bytes "%v") [Value.string (bytes "hi")]).countP
          Effect.isEmit = 1) ∧
    ((Debug sampleRuntime { initial with enableSourceInfo := true }
        [⟨bytes "/x/app.go", 10⟩] [Value.string (bytes "hi")]).countP Effect.isEmit = 0 ∧
     (Debug sampleRuntime { initial with enableSourceInfo := true }
        [⟨bytes "/x/app.go", 10⟩] [Value.string (bytes "hi")]).countP Effect.isCaller = 0 ∧
     (Debugf sampleRuntime { initial with enableSourceInfo := true }
        [⟨bytes "/x/app.go", 10⟩] (bytes "%v") [Value.string (bytes "hi")]).countP
          Effect.isEmit = 0 ∧
     (Debugf sampleRuntime { initial with enableSourceInfo := true }
        [⟨bytes "/x/app.go", 10⟩] (bytes "%v") [Value.string (bytes "hi")]).countP
          Effect.isCaller = 0 ∧
     Debug sampleRuntime { initial with enableSourceInfo := true }
        [⟨bytes "/x/app.go", 10⟩] [Value.string (bytes "hi")] = [] ∧
     Debugf sampleRuntime { initial with enableSourceInfo := true }
        [⟨bytes "/x/app.go", 10⟩] (bytes "%v") [Value.string (bytes "hi")] = []) :=
  ⟨(emit_calls_per_entry_point sampleRuntime
      { initial with enableDebug := true, enableSourceInfo := true }
      [⟨bytes "/x/app.go", 10⟩] (bytes "%v") [Value.string (bytes "hi")]).2.2.1 rfl,
   (emit_calls_per_entry_point sampleRuntime { initial with enableSourceInfo := true }
      [⟨bytes "/x/app.go", 10⟩] (bytes "%v") [Value.string (bytes "hi")]).2.2.2 rfl⟩

/-- C6 fails as stated.  With source information on and `callStackDepth` the largest `int`
(9223372036854775807 on a 64-bit build), a depth beyond every call chain, `skip + 1` wraps
inside `runtime.Caller`, which then reports a frame of the runtime: `Info("hi")` called at
`/x/app.go:10` emits `extern.go:313 - hi`, not ` - hi`.  And for a reported frame whose file
is `/`, the tag is `/:7`: its base name holds a separator. -/
theorem tag_not_empty_at_largest_depth :
    Caller sampleRuntime
        [⟨sampleRuntime.file, 83⟩, ⟨sampleRuntime.file, 95⟩, ⟨sampleRuntime.file, 114⟩,
          ⟨bytes "/x/app.go", 10⟩] 9223372036854775807
      = some ⟨bytes "/usr/local/go/src/runtime/extern.go", 313⟩ ∧
    messages (fun _ _ _ => []) (Info sampleRuntime (State.mk false true 9223372036854775807)
        [⟨bytes "/x/app.go", 10⟩] [Value.string (bytes "hi")])
      = [bytes "extern.go:313 - hi"] ∧
    ¬ (messages (fun _ _ _ => []) (Info sampleRuntime (State.mk false true 9223372036854775807)
        [⟨bytes "/x/app.go", 10⟩] [Value.string (bytes "hi")])
      = [[] ++ s ++ Sprint [Value.string (bytes "hi")]]) ∧
    (getSourceInfo sampleRuntime (State.mk false true 3)
        [⟨sampleRuntime.file, 95⟩, ⟨sampleRuntime.file, 114⟩, ⟨bytes "/", 7⟩]).1
      = bytes "/:7" ∧
    47 ∈ Base (bytes "/") := by
  refine ⟨by decide, by decide, by decide, by decide, by decide⟩

/-- C6 as amended: for every call stack and every `callStackDepth`, `getSourceInfo` returns
`filepath.Base(file) ++ ":" ++ decimal(line)` when `runtime.Caller` reports a frame at that
depth, where the base name holds no separator unless the file path is made of separators
only, and the empty string when it reports none.  With source information on and a depth
beyond the call chain and below the largest `int`, `Info`, `Infof`, `Debug` and `Debugf` (a
total function each) still emit once, and the message is the empty tag, the separator ` - `,
and the message the call gives without source information. -/
theorem getSourceInfo_tag_or_empty (rt : Runtime) (st : State) (stack : List Frame) :
    (∀ f, Caller rt ({ file := rt.file, line := 83 } :: stack) st.callStackDepth = some f →
      (getSourceInfo rt st stack).1 = Base f.file ++ bytes ":" ++ FormatInt f.line 10 ∧
      ((f.file = [] ∨ ∃ c ∈ f.file, c ≠ 47) → 47 ∉ Base f.file)) ∧
    (Caller rt ({ file := rt.file, line := 83 } :: stack) st.callStackDepth = none →
      (getSourceInfo rt st stack).1 = []) ∧
    ((stack.length : Int) + 1 ≤ st.callStackDepth →
      st.callStackDepth < 2 ^ (rt.intSize - 1) - 1 → (getSourceInfo rt st stack).1 = []) ∧
    (∀ (directive : GoString → List Value → Nat → GoString) (format : GoString)
        (v : List Value),
      st.enableSourceInfo = true → (stack.length : Int) + 3 ≤ st.callStackDepth →
      st.callStackDepth < 2 ^ (rt.intSize - 1) - 1 →
      ((Info rt st stack v).filter Effect.isEmit
          = [Effect.print (Value.string [] :: Value.string s :: v)] ∧
       messages directive (Info rt st stack v) = [[] ++ s ++ Sprint v] ∧
       (Infof rt st stack format v).filter Effect.isEmit = [Effect.printf ([] ++ s ++ format) v] ∧
       messages directive (Infof rt st stack format v) = [[] ++ s ++ Sprintf directive format v]) ∧
      (st.enableDebug = true →
       (Debug rt st stack v).filter Effect.isEmit
          = [Effect.print (Value.string [] :: Value.string s :: v)] ∧
       messages directive (Debug rt st stack v) = [[] ++ s ++ Sprint v] ∧
       (Debugf rt st stack format v).filter Effect.isEmit
          = [Effect.printf ([] ++ s ++ format) v] ∧
       messages directive (Debugf rt st stack format v)
          = [[] ++ s ++ Sprintf directive format v])) := by
  refine ⟨?_, ?_, ?_, ?_⟩
  · intro f hf
    exact ⟨by simp [getSourceInfo, hf, Join_pair], Base_no_separator f.file⟩
  · intro hf
    simp [getSourceInfo, hf]
  · intro hd hmax
    have hc := Caller_beyond rt ({ file := rt.file, line := 83 } :: stack) st.callStackDepth
      (by simp only [List.length_cons]; push_cast; omega) (by omega)
    simp [getSourceInfo, hc]
  · intro directive format v hs hd hmax
    have hc : ∀ f1 f2 : Frame,
        Caller rt ({ file := rt.file, line := 83 } :: f1 :: f2 :: stack) st.callStackDepth
          = none := fun f1 f2 =>
      Caller_beyond rt _ st.callStackDepth (by simp only [List.length_cons]; push_cast; omega)
        (by omega)
    refine ⟨?_, ?_⟩
    · simp [Info, Infof, infoLog, infoLogf, getSourceInfo, hs, hc, Effect.isEmit, messages,
        Effect.message, Sprint_string_string, Join_pair, Sprintf_separator]
    · intro hdbg
      simp [Debug, Debugf, infoLog, infoLogf, getSourceInfo, hs, hc, hdbg, Effect.isEmit,
        messages, Effect.message, Sprint_string_string, Join_pair, Sprintf_separator]

/-- Witness for C6 as amended: at depth 3 the frame of the call site `/x/app.go:10` gives the
tag `app.go:10`, whose base name holds no separator; at depth 10, beyond the chain and below
the largest `int`, `Info` emits ` - hi` and `Infof` emits ` - x=hi`. -/
theorem getSourceInfo_tag_or_empty_witness :
    (Caller sampleRuntime
        ({ file := sampleRuntime.file, line := 83 } ::
          [⟨sampleRuntime.file, 95⟩, ⟨sampleRuntime.file, 114⟩, ⟨bytes "/x/app.go", 10⟩])
        (State.mk false true 3).callStackDepth = some ⟨bytes "/x/app.go", 10⟩) ∧
    ((getSourceInfo sampleRuntime (State.mk false true 3)
        [⟨sampleRuntime.file, 95⟩, ⟨sampleRuntime.file, 114⟩, ⟨bytes "/x/app.go", 10⟩]).1
        = bytes "app.go:10") ∧
    47 ∉ Base (bytes "/x/app.go") ∧
    (((1 : Nat) : Int) + 3 ≤ (State.mk false true 10).callStackDepth ∧
      (State.mk false true 10).callStackDepth < 2 ^ (sampleRuntime.intSize - 1) - 1) ∧
    (messages (fun _ _ _ => []) (Info sampleRuntime (State.mk false true 10)
        [⟨bytes "/x/app.go", 10⟩] [Value.string (bytes "hi")]) = [bytes " - hi"]) ∧
    (messages (fun _ _ _ => []) (Infof sampleRuntime (State.mk false true 10)
        [⟨bytes "/x/app.go", 10⟩] (bytes "x=%v") [Value.string (bytes "hi")])
        = [bytes " - x=hi"]) :=
  ⟨by decide,
   ((getSourceInfo_tag_or_empty sampleRuntime (State.mk false true 3)
      [⟨sampleRuntime.file, 95⟩, ⟨sampleRuntime.file, 114⟩, ⟨bytes "/x/app.go", 10⟩]).1
      ⟨bytes "/x/app.go", 10⟩ (by decide)).1,
   ((getSourceInfo_tag_or_empty sampleRuntime (State.mk false true 3)
      [⟨sampleRuntime.file, 95⟩, ⟨sampleRuntime.file, 114⟩, ⟨bytes "/x/app.go", 10⟩]).1
      ⟨bytes "/x/app.go", 10⟩ (by decide)).2 (Or.inr ⟨120, by decide, by decide⟩),
   ⟨by decide, by decide⟩,
   ((getSourceInfo_tag_or_empty sampleRuntime (State.mk false true 10)
      [⟨bytes "/x/app.go", 10⟩]).2.2.2 (fun _ _ _ => []) (bytes "x=%v")
      [Value.string (bytes "hi")] rfl (by decide) (by decide)).1.2.1,
   ((getSourceInfo_tag_or_empty sampleRuntime (State.mk false true 10)
      [⟨bytes "/x/app.go", 10⟩]).2.2.2 (fun _ _ _ => []) (bytes "x=%v")
      [Value.string (bytes "hi")] rfl (by decide) (by decide)).1.2.2.2⟩

/-- C7 fails as stated: with debugging and source information on and `callStackDepth = 2`,
`Debug` called at `/x/app.go:10` passes the tag `main.go:125` to `log.Print` while `Info`
called there passes `main.go:114`. -/
theorem debug_differs_from_info_at_depth_two :
    (Debug sampleRuntime (State.mk true true 2) [⟨bytes "/x/app.go", 10⟩]
        [Value.string (bytes "hi")]).filter Effect.isEmit
      = [Effect.print [Value.string (bytes "main.go:125"), Value.string (bytes " - "),
          Value.string (bytes "hi")]] ∧
    (Info sampleRuntime (State.mk true true 2) [⟨bytes "/x/app.go", 10⟩]
        [Value.string (bytes "hi")]).filter Effect.isEmit
      = [Effect.print [Value.string (bytes "main.go:114"), Value.string (bytes " - "),
          Value.string (bytes "hi")]] ∧
    ¬ ((Debug sampleRuntime (State.mk true true 2) [⟨bytes "/x/app.go", 10⟩]
          [Value.string (bytes "hi")]).filter Effect.isEmit
        = (Info sampleRuntime (State.mk true true 2) [⟨bytes "/x/app.go", 10⟩]
          [Value.string (bytes "hi")]).filter Effect.isEmit) := by
  refine ⟨rfl, rfl, ?_⟩
  decide

/-- C7 as amended: in every configuration state with `enableDebug` true, for every call stack
and argument list, `Debug(v...)` passes to the emit primitive exactly what `Info(v...)` passes
from the same call site, resolved tag included, and `Debugf` exactly what `Infof` passes,
whenever `enableSourceInfo` is false or `callStackDepth` is not 2; and only then. -/
theorem debug_passes_what_info_passes (rt : Runtime) (st : State) (stack : List Frame)
    (format : GoString) (v : List Value) (hd : st.enableDebug = true) :
    ((Debug rt st stack v).filter Effect.isEmit = (Info rt st stack v).filter Effect.isEmit ↔
      (st.enableSourceInfo = false ∨ st.callStackDepth ≠ 2)) ∧
    ((Debugf rt st stack format v).filter Effect.isEmit
        = (Infof rt st stack format v).filter Effect.isEmit ↔
      (st.enableSourceInfo = false ∨ st.callStackDepth ≠ 2)) := by
  have h125 : ¬ (FormatInt 125 10 = FormatInt 114 10) := by decide
  have h132 : ¬ (FormatInt 132 10 = FormatInt 119 10) := by decide
  cases hs : st.enableSourceInfo
  · simp [Debug, Debugf, Info, Infof, infoLog, infoLogf, hs, hd]
  · by_cases h2 : st.callStackDepth = 2
    · simp [Debug, Debugf, Info, Infof, infoLog, infoLogf, getSourceInfo, hs, hd, h2,
        Caller_two, Effect.isEmit, Join_pair, h125, h132]
    · have e1 := Caller_third_frame rt ⟨rt.file, 83⟩ ⟨rt.file, 95⟩ ⟨rt.file, 125⟩
        ⟨rt.file, 114⟩ stack st.callStackDepth h2
      have e2 := Caller_third_frame rt ⟨rt.file, 83⟩ ⟨rt.file, 106⟩ ⟨rt.file, 132⟩
        ⟨rt.file, 119⟩ stack st.callStackDepth h2
      simp [Debug, Debugf, Info, Infof, infoLog, infoLogf, getSourceInfo, hs, hd, h2,
        e1, e2, Effect.isEmit]

/-- Witness for C7 as amended: at the default depth 3, `Debug` and `Info` called at
`/x/app.go:10` pass the same operands. -/
theorem debug_passes_what_info_passes_witness :
    (State.mk true true 3).enableDebug = true ∧
    ((Debug sampleRuntime (State.mk true true 3) [⟨bytes "/x/app.go", 10⟩]
          [Value.string (bytes "hi")]).filter Effect.isEmit
        = (Info sampleRuntime (State.mk true true 3) [⟨bytes "/x/app.go", 10⟩]
          [Value.string (bytes "hi")]).filter Effect.isEmit) :=
  ⟨rfl, ((debug_passes_what_info_passes sampleRuntime (State.mk true true 3)
      [⟨bytes "/x/app.go", 10⟩] (bytes "%v") [Value.string (bytes "hi")] rfl).1).2
      (Or.inr (by decide))⟩

/-! ## The setters -/

/-- C8: in every configuration state, for every integer `d` and boolean `b`,
`SetCallStackDepth(d)` leaves `callStackDepth = d` and the two flags as they were,
`SetDisplaySourceInfo(b)` leaves `enableSourceInfo = b` and `enableDebug` and
`callStackDepth` as they were, `IsDebug()` is the same before and after either setter, and
the next log call reads the new values: after `SetCallStackDepth(d)` with source information
on, `Info` calls `runtime.Caller(d)`; after `SetDisplaySourceInfo(false)` it passes its
operands on unchanged and after `SetDisplaySourceInfo(true)` it puts the tag in front. -/
theorem setters_overwrite_one_variable (rt : Runtime) (st : State) (d : Int) (b : Bool)
    (stack : List Frame) (v : List Value) :
    ((SetCallStackDepth d st).callStackDepth = d ∧
     (SetCallStackDepth d st).enableDebug = st.enableDebug ∧
     (SetCallStackDepth d st).enableSourceInfo = st.enableSourceInfo) ∧
    ((SetDisplaySourceInfo b st).enableSourceInfo = b ∧
     (SetDisplaySourceInfo b st).enableDebug = st.enableDebug ∧
     (SetDisplaySourceInfo b st).callStackDepth = st.callStackDepth) ∧
    (IsDebug (SetCallStackDepth d st) = IsDebug st ∧
     IsDebug (SetDisplaySourceInfo b st) = IsDebug st) ∧
    ((Info rt (SetCallStackDepth d (SetDisplaySourceInfo true st)) stack v).filter
        Effect.isCaller
      = [Effect.caller
          (⟨rt.file, 83⟩ :: ⟨rt.file, 95⟩ :: ⟨rt.file, 114⟩ :: stack) d]) ∧
    (Info rt (SetDisplaySourceInfo false st) stack v = [Effect.print v]) ∧
    ((Info rt (SetDisplaySourceInfo true st) stack v).filter Effect.isEmit
      = [Effect.print
          (Value.string (getSourceInfo rt st (⟨rt.file, 95⟩ :: ⟨rt.file, 114⟩ :: stack)).1
            :: Value.string s :: v)]) := by
  refine ⟨⟨rfl, rfl, rfl⟩, ⟨rfl, rfl, rfl⟩, ⟨rfl, rfl⟩, ?_, ?_, ?_⟩
  · simp [Info, infoLog, getSourceInfo, SetCallStackDepth, SetDisplaySourceInfo,
      Effect.isCaller]
  · simp [Info, infoLog, SetDisplaySourceInfo]
  · simp [Info, infoLog, getSourceInfo, SetDisplaySourceInfo, Effect.isEmit]

/-! ## Which frame the configured depth resolves -/

/-- C9 at the failing input: in a run where the embedding program calls `Info` directly (the
call site is the head of the stack), with source information on, depth 2 makes
`runtime.Caller` report the frame of `Info` itself, line 114 of `main.go`, and the tag names
that line; it is depth 3 that resolves the call site.  For the call on line 10 of
`examples/simple.go` the tags are `main.go:114` and `simple.go:10`. -/
theorem depth_two_resolves_the_entry_point (rt : Runtime) (dbg : Bool) (site : Frame)
    (rest : List Frame) (v : List Value) :
    Caller rt (⟨rt.file, 83⟩ :: ⟨rt.file, 95⟩ :: ⟨rt.file, 114⟩ :: site :: rest) 2
      = some ⟨rt.file, 114⟩ ∧
    (Info rt (State.mk dbg true 2) (site :: rest) v).filter Effect.isEmit
      = [Effect.print (Value.string (Base rt.file ++ bytes ":" ++ bytes "114")
          :: Value.string s :: v)] ∧
    (Info rt (State.mk dbg true 3) (site :: rest) v).filter Effect.isEmit
      = [Effect.print (Value.string (Base site.file ++ bytes ":" ++ FormatInt site.line 10)
          :: Value.string s :: v)] ∧
    (Info sampleRuntime (SetCallStackDepth 2 (State.mk dbg true 3))
        [⟨bytes "/go/src/github.com/chuck7000/gl/examples/simple.go", 10⟩]
        [Value.string (bytes "This is a regular log message")]).filter Effect.isEmit
      = [Effect.print [Value.string (bytes "main.go:114"), Value.string (bytes " - "),
          Value.string (bytes "This is a regular log message")]] ∧
    (Info sampleRuntime (SetCallStackDepth 3 (State.mk dbg true 3))
        [⟨bytes "/go/src/github.com/chuck7000/gl/examples/simple.go", 10⟩]
        [Value.string (bytes "This is a regular log message")]).filter Effect.isEmit
      = [Effect.print [Value.string (bytes "simple.go:10"), Value.string (bytes " - "),
          Value.string (bytes "This is a regular log message")]] := by
  have h114 : FormatInt 114 10 = bytes "114" := by decide
  refine ⟨Caller_two rt _ _ _ _, ?_, ?_, ?_, ?_⟩
  · simp [Info, infoLog, getSourceInfo, Caller_two, Join_pair, Effect.isEmit, h114]
  · simp [Info, infoLog, getSourceInfo, Caller_three, Join_pair, Effect.isEmit]
  · simp only [Info, infoLog, getSourceInfo, SetCallStackDepth, Caller_two]
    rfl
  · simp only [Info, infoLog, getSourceInfo, SetCallStackDepth, Caller_three]
    rfl

/-- C10: the `var` block sets `callStackDepth` to 3 and `init` leaves it there, whatever
`DEBUG` holds.  Each of `Info`, `Infof`, `Debug` and `Debugf` reaches the call of
`runtime.Caller` through three frames of the package (`getSourceInfo`, `infoLog` or
`infoLogf`, the entry point), so at that default depth the frame resolved is the external
call site for all four, and the tag is made from that frame. -/
theorem entry_points_resolve_call_site (rt : Runtime) (st : State) (site : Frame)
    (rest : List Frame) (format : GoString) (v : List Value)
    (hdepth : st.callStackDepth = initial.callStackDepth) (hs : st.enableSourceInfo = true) :
    (initial.callStackDepth = 3 ∧
     ∀ (intSize : Nat) (mapUpper : GoString → GoString) (env : Option GoString),
       (init intSize mapUpper env initial).callStackDepth = 3) ∧
    (Info rt st (site :: rest) v
        = [Effect.caller (⟨rt.file, 83⟩ :: ⟨rt.file, 95⟩ :: ⟨rt.file, 114⟩ :: site :: rest) 3,
           Effect.print (Value.string (Base site.file ++ bytes ":" ++ FormatInt site.line 10)
             :: Value.string s :: v)]) ∧
    (Infof rt st (site :: rest) format v
        = [Effect.caller (⟨rt.file, 83⟩ :: ⟨rt.file, 106⟩ :: ⟨rt.file, 119⟩ :: site :: rest) 3,
           Effect.printf (Base site.file ++ bytes ":" ++ FormatInt site.line 10 ++ s ++ format)
             v]) ∧
    (st.enableDebug = true →
      Debug rt st (site :: rest) v
        = [Effect.caller (⟨rt.file, 83⟩ :: ⟨rt.file, 95⟩ :: ⟨rt.file, 125⟩ :: site :: rest) 3,
           Effect.print (Value.string (Base site.file ++ bytes ":" ++ FormatInt site.line 10)
             :: Value.string s :: v)] ∧
      Debugf rt st (site :: rest) format v
        = [Effect.caller (⟨rt.file, 83⟩ :: ⟨rt.file, 106⟩ :: ⟨rt.file, 132⟩ :: site :: rest) 3,
           Effect.printf (Base site.file ++ bytes ":" ++ FormatInt site.line 10 ++ s ++ format)
             v]) ∧
    (∀ a b c : Frame,
      Caller rt (a :: b :: c :: site :: rest) initial.callStackDepth = some site) := by
  have h3 : initial.callStackDepth = 3 := rfl
  rw [h3] at hdepth
  refine ⟨⟨h3, ?_⟩, ?_, ?_, ?_, fun a b c => by rw [h3]; exact Caller_three rt a b c site rest⟩
  · intro intSize mapUpper env
    rw [init_callStackDepth, h3]
  · simp [Info, infoLog, getSourceInfo, hs, hdepth, Caller_three, Join_pair]
  · simp [Infof, infoLogf, getSourceInfo, hs, hdepth, Caller_three, Join_pair]
  · intro hd
    simp [Debug, Debugf, infoLog, infoLogf, getSourceInfo, hs, hd, hdepth, Caller_three,
      Join_pair]

/-- Witness for C10: the four calls of `examples/simple.go` (lines 8 to 11) in the state
`init` leaves under `DEBUG=1`, the depth being the default. -/
theorem entry_points_resolve_call_site_witness :
    ((init 64 id (some (bytes "1")) initial).callStackDepth = initial.callStackDepth ∧
      (init 64 id (some (bytes "1")) initial).enableSourceInfo = true ∧
      (init 64 id (some (bytes "1")) initial).enableDebug = true) ∧
    (messages (fun _ _ _ => []) (Info sampleRuntime (init 64 id (some (bytes "1")) initial)
        [⟨bytes "/go/src/github.com/chuck7000/gl/examples/simple.go", 10⟩]
        [Value.string (bytes "This is a regular log message")])
      = [bytes "simple.go:10 - This is a regular log message"]) ∧
    (Debugf sampleRuntime (init 64 id (some (bytes "1")) initial)
        [⟨bytes "/go/src/github.com/chuck7000/gl/examples/simple.go", 9⟩]
        (bytes "This is also a %v message") [Value.string (bytes "debug")]
      = [Effect.caller [⟨sampleRuntime.file, 83⟩, ⟨sampleRuntime.file, 106⟩,
            ⟨sampleRuntime.file, 132⟩,
            ⟨bytes "/go/src/github.com/chuck7000/gl/examples/simple.go", 9⟩] 3,
         Effect.printf (bytes "simple.go:9 - This is also a %v message")
            [Value.string (bytes "debug")]]) :=
  ⟨⟨by decide, by decide, by decide⟩,
   congrArg (messages (fun _ _ _ => []))
     (entry_points_resolve_call_site sampleRuntime (init 64 id (some (bytes "1")) initial)
       ⟨bytes "/go/src/github.com/chuck7000/gl/examples/simple.go", 10⟩ []
       (bytes "") [Value.string (bytes "This is a regular log message")]
       (by decide) (by decide)).2.1,
   ((entry_points_resolve_call_site sampleRuntime (init 64 id (some (bytes "1")) initial)
       ⟨bytes "/go/src/github.com/chuck7000/gl/examples/simple.go", 9⟩ []
       (bytes "This is also a %v message") [Value.string (bytes "debug")]
       (by decide) (by decide)).2.2.2.1 (by decide)).2⟩

/-! ## The emitted message and the source-information tag -/

/-- Without source information the operands reach the emit primitive unchanged. -/
theorem operands_unchanged_without_source_info (rt : Runtime) (st : State)
    (stack : List Frame) (format : GoString) (v : List Value)
    (hs : st.enableSourceInfo = false) :
    Info rt st stack v = [Effect.print v] ∧
    Infof rt st stack format v = [Effect.printf format v] := by
  simp [Info, Infof, infoLog, infoLogf, hs]

/-- With source information on, the message of `Info` is the tag, the separator and the
message of the same call without source information, for every tag. -/
theorem Info_message_tagged (rt : Runtime) (st : State) (stack : List Frame)
    (directive : GoString → List Value → Nat → GoString) (v : List Value)
    (hs : st.enableSourceInfo = true) :
    messages directive (Info rt st stack v)
      = [(getSourceInfo rt st (⟨rt.file, 95⟩ :: ⟨rt.file, 114⟩ :: stack)).1 ++ s ++ Sprint v] := by
  simp [Info, infoLog, getSourceInfo, hs, messages, Effect.message, Sprint_string_string]

/-- With source information on, the message of `Infof` is the tag, the separator and the
message of the same call without source information, provided the tag holds no `%`. -/
theorem Infof_message_tagged (rt : Runtime) (st : State) (stack : List Frame)
    (directive : GoString → List Value → Nat → GoString) (format : GoString) (v : List Value)
    (hs : st.enableSourceInfo = true)
    (hp : ∀ c ∈ (getSourceInfo rt st (⟨rt.file, 106⟩ :: ⟨rt.file, 119⟩ :: stack)).1, c ≠ 37) :
    messages directive (Infof rt st stack format v)
      = [(getSourceInfo rt st (⟨rt.file, 106⟩ :: ⟨rt.file, 119⟩ :: stack)).1 ++ s
          ++ Sprintf directive format v] := by
  have e : Infof rt st stack format v
      = [Effect.caller (⟨rt.file, 83⟩ :: ⟨rt.file, 106⟩ :: ⟨rt.file, 119⟩ :: stack)
          st.callStackDepth,
         Effect.printf
          ((getSourceInfo rt st (⟨rt.file, 106⟩ :: ⟨rt.file, 119⟩ :: stack)).1 ++ s ++ format)
          v] := by
    simp [Infof, infoLogf, getSourceInfo, hs, Join_pair]
  rw [e]
  have h := doPrintf_literal directive _ (s ++ format) v 0 hp
  have h' := Sprintf_separator directive format v
  simp only [Sprintf] at h'
  simp only [messages, List.filterMap_cons, Effect.message, List.filterMap_nil, Sprintf,
    List.append_assoc, h, h']

/-- C5 at the failing input: `Infof("loaded %v", "cfg")` called on line 8 of
`/x/100%value.go` at depth 3.  The tag is `100%value.go:8`.  Without source information the
message is `loaded cfg`; with it the message is `100cfgalue.go:8 - loaded %!v(MISSING)`, not
the tag, the separator and `loaded cfg`, because the `%v` of the file name takes the
operand.  `Info("loaded ", "cfg")` from the same place gives `100%value.go:8 - loaded cfg`.
Without source information `Infof("%v and %v", "a", "b")` gives `a and b`. -/
theorem Infof_reads_tag_as_format (rt : Runtime)
    (directive : GoString → List Value → Nat → GoString) (dbg : Bool) :
    (getSourceInfo rt (State.mk dbg true 3)
        [⟨rt.file, 106⟩, ⟨rt.file, 119⟩, ⟨bytes "/x/100%value.go", 8⟩]).1
      = bytes "100%value.go:8" ∧
    messages directive (Infof rt (State.mk dbg false 3) [⟨bytes "/x/100%value.go", 8⟩]
        (bytes "loaded %v") [Value.string (bytes "cfg")])
      = [bytes "loaded cfg"] ∧
    messages directive (Infof rt (State.mk dbg true 3) [⟨bytes "/x/100%value.go", 8⟩]
        (bytes "loaded %v") [Value.string (bytes "cfg")])
      = [bytes "100cfgalue.go:8 - loaded %!v(MISSING)"] ∧
    ¬ (messages directive (Infof rt (State.mk dbg true 3) [⟨bytes "/x/100%value.go", 8⟩]
        (bytes "loaded %v") [Value.string (bytes "cfg")])
      = [bytes "100%value.go:8" ++ s ++ bytes "loaded cfg"]) ∧
    messages directive (Info rt (State.mk dbg true 3) [⟨bytes "/x/100%value.go", 8⟩]
        [Value.string (bytes "loaded "), Value.string (bytes "cfg")])
      = [bytes "100%value.go:8" ++ s ++ bytes "loaded cfg"] ∧
    messages directive (Infof rt (State.mk dbg false 3) [⟨bytes "/x/100%value.go", 8⟩]
        (bytes "%v and %v") [Value.string (bytes "a"), Value.string (bytes "b")])
      = [bytes "a and b"] := by
  have h : messages directive (Infof rt (State.mk dbg true 3) [⟨bytes "/x/100%value.go", 8⟩]
        (bytes "loaded %v") [Value.string (bytes "cfg")])
      = [bytes "100cfgalue.go:8 - loaded %!v(MISSING)"] := by
    simp only [Infof, infoLogf, getSourceInfo, Caller_three]
    rfl
  refine ⟨?_, rfl, h, ?_, ?_, rfl⟩
  · simp only [getSourceInfo, Caller_three]
    rfl
  · rw [h]
    decide
  · simp only [Info, infoLog, getSourceInfo, Caller_three]
    rfl

end Gl
